import Mathlib

/-!
Verification of the MicroPython event core in
`src/components/micropython/micropython.c` (LionsOS): the two-context
cooperative scheduler, the `active_events` / `mp_blocking_events` bitmasks,
the blocking-wait primitive `await`, the notification dispatcher `notified`,
the bootstrap `init`, and the interpreter entry routine `t_mp_entrypoint`.

The event bitmask constants `mp_event_source_*` and the channel constants
(`SERIAL_RX_CH`, `TIMER_CH`, ...) come from `micropython.h`, which is not
part of the provided sources; following the spec ("Fixed C-style event
bitmask: map to a small closed set (tagged enum) with set/clear operations")
the masks are embedded as finite sets of a closed tag type, which is faithful
because every constant is a distinct single bit and `mp_event_source_none`
is the empty mask.
-/

set_option maxHeartbeats 1000000

namespace MPCore

/-- Modelled from the spec: the Event Source tags.  The numeric bit values
live in `micropython.h` (not under the provided sources); only distinctness
of the bits matters, so the mask type is `Finset mp_event_source` with
`mp_event_source_none` embedded as `∅`, bit-or with a single bit as
`insert`, and `mask &= ~bit` as `erase`. -/
inductive mp_event_source where
  | serial
  | timer
  | framebuffer
  | nfs
  | i2c
deriving DecidableEq, Repr

/-- The channel identifiers appearing in the `switch` of `notified`.  Their
numeric values come from `micropython.h` (not under the provided sources);
they are pairwise distinct channels, and `other n` stands for any channel
id outside the fixed table (the `default` case of the switch). -/
inductive Channel where
  | SERIAL_RX_CH
  | TIMER_CH
  | FRAMEBUFFER_VMM_CH
  | NFS_CH
  | I2C_CH
  | ETH_RX_CH
  | ETH_TX_CH
  | other (n : Nat)
deriving DecidableEq, Repr

/-- Build configuration: the `#ifdef ENABLE_I2C` / `#ifdef ENABLE_FRAMEBUFFER`
compile-time switches of micropython.c.  When a flag is off, the
corresponding `case` label is absent from the `switch` in `notified`, so the
channel falls through to the `default` case. -/
structure BuildCfg where
  enable_i2c : Bool
  enable_framebuffer : Bool
deriving DecidableEq, Repr

/-- The event state of the component: the two global bitmasks
`int active_events` (Pending-Events) and `int mp_blocking_events`
(Awaited-Event), both initialised to `mp_event_source_none` (∅). -/
structure EventState where
  active_events : Finset mp_event_source
  mp_blocking_events : Finset mp_event_source
deriving DecidableEq

/-- The initial values of the two globals:
`int active_events = mp_event_source_none;`
`int mp_blocking_events = mp_event_source_none;` -/
def initEventState : EventState := ⟨∅, ∅⟩

/-- Outcome of the first half of `await` (micropython.c lines 53-59), up to
the suspension point `co_switch(t_event)`:
either the fast path returned immediately (no context switch), or the slow
path recorded the awaited source and suspended at `co_switch(t_event)`. -/
inductive AwaitOutcome where
  | immediate (st : EventState)
  | suspended (st : EventState)
deriving DecidableEq

/-- First half of `await(event_source)` (micropython.c lines 53-59):
```
if (active_events & event_source) { active_events &= ~event_source; return; }
mp_blocking_events = event_source;
co_switch(t_event);
```
Fast path: the bit is already pending, clear it and return.  Slow path:
record the source as Awaited-Event and yield to the event context. -/
def await_begin (s : mp_event_source) (st : EventState) : AwaitOutcome :=
  if s ∈ st.active_events then
    .immediate ⟨st.active_events.erase s, st.mp_blocking_events⟩
  else
    .suspended ⟨st.active_events, {s}⟩

/-- Second half of `await(event_source)` (micropython.c lines 60-62), run
when the dispatcher's `co_switch(t_mp)` resumes the suspended call:
```
assert(active_events & event_source);
mp_blocking_events = mp_event_source_none;
active_events &= ~event_source;
```
`none` models the assertion failing (`__assert_func` spins forever, a halt). -/
def await_resume (s : mp_event_source) (st : EventState) : Option EventState :=
  if s ∈ st.active_events then
    some ⟨st.active_events.erase s, ∅⟩
  else
    none

/-- The action the `switch (ch)` statement of `notified` takes for a channel:
set an event bit, do nothing (the ethernet cases), or log an unexpected
channel (the `default` case). -/
inductive ChanAction where
  | setEvent (s : mp_event_source)
  | nothingToDo
  | unknownLogged
deriving DecidableEq, Repr

/-- The `switch (ch)` of `notified` (micropython.c lines 160-188).  The
`FRAMEBUFFER_VMM_CH` and `I2C_CH` cases exist only under their `#ifdef`;
with the flag off those channels hit the `default` case. -/
def dispatch_case (cfg : BuildCfg) (ch : Channel) : ChanAction :=
  match ch with
  | .SERIAL_RX_CH => .setEvent .serial
  | .TIMER_CH => .setEvent .timer
  | .FRAMEBUFFER_VMM_CH =>
      if cfg.enable_framebuffer then .setEvent .framebuffer else .unknownLogged
  | .NFS_CH => .setEvent .nfs
  | .I2C_CH =>
      if cfg.enable_i2c then .setEvent .i2c else .unknownLogged
  | .ETH_RX_CH => .nothingToDo
  | .ETH_TX_CH => .nothingToDo
  | .other _ => .unknownLogged

/-- The effect of the `switch (ch)` on `active_events`: the recognised
event-bearing channels OR their bit in (`active_events |= ...`); the
ethernet cases and the `default` case leave the mask unchanged. -/
def chan_update (cfg : BuildCfg) (ch : Channel)
    (active : Finset mp_event_source) : Finset mp_event_source :=
  match dispatch_case cfg ch with
  | .setEvent s => insert s active
  | .nothingToDo => active
  | .unknownLogged => active

/-- Result of one full `notified(ch)` invocation.  `resumed st` means the
condition `active_events & mp_blocking_events` fired, `co_switch(t_mp)`
resumed the suspended `await`, and that `await` ran its resume half to
completion (assert passed, Awaited-Event cleared, bit cleared) before
control eventually returns to the event context; `noResume st` means the
condition did not fire; `halted` means the resumed `await`'s assertion
failed (the process spins in `__assert_func`). -/
inductive NotifiedResult where
  | resumed (st : EventState)
  | noResume (st : EventState)
  | halted
deriving DecidableEq

/-- One invocation of `notified(ch)` (micropython.c lines 155-194), composed
with the resume half of the suspended `await` when the switch fires.
`blockedSrc` is the event source of the `await` call currently suspended at
`co_switch(t_event)` (`none` when the interpreter context is not suspended
inside `await`); in every reachable state `mp_blocking_events = {s}` exactly
when `blockedSrc = some s`.  The transport pumps `process_rx()`,
`pyb_lwip_poll()`, `fs_process_completions()` and the trailing
`mpnet_handle_notify()` are external collaborators (their definitions are
not under the provided sources); per the spec, Pending-Events is "mutated
only by the Notification Dispatcher (sets bits) and the Blocking Wait
primitive (clears the bit it consumes)", so they leave the event state
unchanged.  `stuck` is the unreachable case of `co_switch(t_mp)` firing
with no suspended `await` frame. -/
def notified_run (cfg : BuildCfg) (ch : Channel) (st : EventState)
    (blockedSrc : Option mp_event_source) : Option NotifiedResult :=
  let active' := chan_update cfg ch st.active_events
  let st' : EventState := ⟨active', st.mp_blocking_events⟩
  if (st'.active_events ∩ st'.mp_blocking_events).Nonempty then
    match blockedSrc with
    | some s =>
        match await_resume s st' with
        | some st'' => some (.resumed st'')
        | none => some .halted
    | none => none
  else
    some (.noResume st')

/-- The observable actions taken by one invocation of `notified`, in
program order (for the ordering claims about the dispatcher). -/
inductive Action where
  | process_rx
  | pyb_lwip_poll
  | fs_process_completions
  | set_bit (s : mp_event_source)
  | log_unknown
  | switch_to_mp
  | mpnet_handle_notify
deriving DecidableEq, Repr

/-- The sequence of actions performed by `notified(ch)` (micropython.c
lines 155-194), in the textual order of the function body: the three
transport pumps run first and unconditionally; then the `switch (ch)`
either sets a bit, does nothing (ethernet), or logs an unexpected channel;
then `co_switch(t_mp)` runs only if `active_events & mp_blocking_events`;
and `mpnet_handle_notify()` runs last, after control is back in the event
context. -/
def notified_trace (cfg : BuildCfg) (ch : Channel) (st : EventState) :
    List Action :=
  [.process_rx, .pyb_lwip_poll, .fs_process_completions]
  ++ (match dispatch_case cfg ch with
      | .setEvent s => [.set_bit s]
      | .nothingToDo => []
      | .unknownLogged => [.log_unknown])
  ++ (if ((chan_update cfg ch st.active_events) ∩
          st.mp_blocking_events).Nonempty
      then [.switch_to_mp] else [])
  ++ [.mpnet_handle_notify]

/-- The per-ring bootstrap seeding loop of `init` (micropython.c lines
134-136 and 138-140):
```
for (int i = 0; i < NUM_ENTRIES - 1; i++) {
    serial_enqueue_free(&q, data + ((i + NUM_ENTRIES) * BUFFER_SIZE), BUFFER_SIZE);
}
```
returns, in order, the `(buffer, length)` argument pairs of the
`serial_enqueue_free` calls issued for one ring with data region base
`data`. -/
def init_seed_calls (data num_entries buffer_size : Nat) : List (Nat × Nat) :=
  (List.range (num_entries - 1)).map
    (fun i => (data + (i + num_entries) * buffer_size, buffer_size))

/-- Program points of the interpreter entry routine `t_mp_entrypoint`
(micropython.c lines 99-130). -/
inductive EntryPoint where
  | start_repl    -- runtime init: mp_stack_ctrl_init, gc_init, mp_init, init_nfs, init_networking
  | main_loop     -- pyexec_friendly_repl() / pyexec_frozen_module(...)
  | teardown      -- gc_sweep_all, mp_deinit, "exited!" print
  | switch_back   -- co_switch(t_event) at line 129
  | terminated    -- interpreter execution over for the process lifetime
deriving DecidableEq, Repr

/-- One control-flow step of `t_mp_entrypoint`, parameterised by whether
`EXEC_MODULE` is defined.  After teardown, the REPL build
(`EXEC_MODULE` undefined) executes `goto start_repl` (line 126), so the
`co_switch(t_event)` on line 129 is dead code; the frozen-module build has
neither the label nor the goto and falls through to `co_switch(t_event)`. -/
def entry_step (exec_module : Bool) : EntryPoint → EntryPoint
  | .start_repl => .main_loop
  | .main_loop => .teardown
  | .teardown => if exec_module then .switch_back else .start_repl
  | .switch_back => .terminated
  | .terminated => .terminated

/-- Iterate `n` control-flow steps of `t_mp_entrypoint` from a program
point. -/
def entry_iter (exec_module : Bool) : Nat → EntryPoint → EntryPoint
  | 0, p => p
  | n + 1, p => entry_iter exec_module n (entry_step exec_module p)

/-- Control state of the interpreter context (cothread `t_mp`): running
interpreter code, suspended inside `await` at `co_switch(t_event)` on the
event source it waits for, or finished (`t_mp_entrypoint` switched back to
`t_event` permanently). -/
inductive MpCtl where
  | running
  | blockedOn (s : mp_event_source)
  | exited
deriving DecidableEq, Repr

/-- Whole-system state: the two event bitmasks plus the control state of
the interpreter context. -/
structure Sys where
  ev : EventState
  mp : MpCtl
deriving DecidableEq

/-- Initial system state: both masks are `mp_event_source_none` and `init`
has just performed `co_switch(t_mp)`, so the interpreter context is
running. -/
def initSys : Sys := ⟨initEventState, .running⟩

/-- Small-step transition relation of the event core.  Interpreter-context
steps (`await` fast path, `await` slow path, interpreter exit) can occur
only while `mp = running` (the event context is then suspended inside
`co_switch`); dispatcher steps (`notified`) can occur only while the
interpreter context is suspended, and are composed with the resume half of
`await` exactly as `notified_run` does. -/
inductive Step (cfg : BuildCfg) : Sys → Sys → Prop where
  | await_fast (s : mp_event_source) (st : EventState)
      (hs : s ∈ st.active_events) :
      Step cfg ⟨st, .running⟩
        ⟨⟨st.active_events.erase s, st.mp_blocking_events⟩, .running⟩
  | await_slow (s : mp_event_source) (st : EventState)
      (hs : s ∉ st.active_events) :
      Step cfg ⟨st, .running⟩ ⟨⟨st.active_events, {s}⟩, .blockedOn s⟩
  | mp_exit (st : EventState) :
      Step cfg ⟨st, .running⟩ ⟨st, .exited⟩
  | notify_no_resume (ch : Channel) (st : EventState) (m : MpCtl)
      (hm : m ≠ .running)
      (hcond : ((chan_update cfg ch st.active_events) ∩
                st.mp_blocking_events) = ∅) :
      Step cfg ⟨st, m⟩
        ⟨⟨chan_update cfg ch st.active_events, st.mp_blocking_events⟩, m⟩
  | notify_resume (ch : Channel) (st : EventState) (s : mp_event_source)
      (hcond : ((chan_update cfg ch st.active_events) ∩
                st.mp_blocking_events).Nonempty)
      (hres : s ∈ chan_update cfg ch st.active_events) :
      Step cfg ⟨st, .blockedOn s⟩
        ⟨⟨(chan_update cfg ch st.active_events).erase s, ∅⟩, .running⟩

/-- Reachability from the initial system state. -/
inductive Reachable (cfg : BuildCfg) : Sys → Prop where
  | init : Reachable cfg initSys
  | step {a b : Sys} : Reachable cfg a → Step cfg a b → Reachable cfg b

/-- The coupling invariant between Awaited-Event and the interpreter
control state: `mp_blocking_events` is empty exactly when the interpreter
context is not suspended inside `await`, and holds the single awaited tag
when it is. -/
def SysInv (sys : Sys) : Prop :=
  match sys.mp with
  | .running => sys.ev.mp_blocking_events = ∅
  | .blockedOn s => sys.ev.mp_blocking_events = {s}
  | .exited => sys.ev.mp_blocking_events = ∅

lemma sysInv_init : SysInv initSys := rfl

lemma sysInv_step {cfg : BuildCfg} {a b : Sys} (ha : SysInv a)
    (h : Step cfg a b) : SysInv b := by
  cases h with
  | await_fast s st hs => exact ha
  | await_slow s st hs => rfl
  | mp_exit st => exact ha
  | notify_no_resume ch st m hm hcond =>
      cases m with
      | running => exact absurd rfl hm
      | blockedOn s => exact ha
      | exited => exact ha
  | notify_resume ch st s hcond hres => rfl

/-- Every reachable system state satisfies the coupling invariant. -/
lemma reachable_sysInv {cfg : BuildCfg} {sys : Sys}
    (h : Reachable cfg sys) : SysInv sys := by
  induction h with
  | init => exact sysInv_init
  | step _ hstep ih => exact sysInv_step ih hstep

/-- Iterated channel-mapping updates of `active_events` over a sequence of
`notified` invocations (the state left in Pending-Events by a run of
dispatcher calls during which the interpreter context never runs). -/
def notified_fold (cfg : BuildCfg) (chs : List Channel)
    (active : Finset mp_event_source) : Finset mp_event_source :=
  chs.foldl (fun acc ch => chan_update cfg ch acc) active

lemma subset_chan_update (cfg : BuildCfg) (ch : Channel)
    (a : Finset mp_event_source) : a ⊆ chan_update cfg ch a := by
  unfold chan_update
  cases dispatch_case cfg ch with
  | setEvent s => exact Finset.subset_insert s a
  | nothingToDo => exact Finset.Subset.refl a
  | unknownLogged => exact Finset.Subset.refl a

lemma subset_notified_fold (cfg : BuildCfg) (chs : List Channel)
    (a : Finset mp_event_source) : a ⊆ notified_fold cfg chs a := by
  induction chs generalizing a with
  | nil => exact Finset.Subset.refl a
  | cons ch rest ih =>
      exact (subset_chan_update cfg ch a).trans (ih (chan_update cfg ch a))

/-- C2: fast path of the blocking wait.  If the bit for `s` is already set
in Pending-Events, `await(s)` returns immediately (no context switch),
clears exactly the bit for `s`, and leaves Awaited-Event untouched. -/
theorem C2_await_fast_path (s : mp_event_source) (st : EventState)
    (hs : s ∈ st.active_events) :
    ∃ st' : EventState,
      await_begin s st = .immediate st' ∧
      st'.active_events = st.active_events.erase s ∧
      st'.mp_blocking_events = st.mp_blocking_events ∧
      s ∉ st'.active_events ∧
      ∀ t, t ≠ s → (t ∈ st'.active_events ↔ t ∈ st.active_events) := by
  refine ⟨⟨st.active_events.erase s, st.mp_blocking_events⟩, ?_, rfl, rfl, ?_, ?_⟩
  · unfold await_begin
    rw [if_pos hs]
  · exact Finset.not_mem_erase s st.active_events
  · intro t ht
    simpa using fun _ => ht

/-- Witness for C2 at a concrete state: Pending-Events = {serial, timer},
awaiting serial. -/
theorem C2_await_fast_path_witness :
    mp_event_source.serial ∈
      (⟨{.serial, .timer}, ∅⟩ : EventState).active_events ∧
    ∃ st' : EventState,
      await_begin .serial ⟨{.serial, .timer}, ∅⟩ = .immediate st' ∧
      st'.active_events =
        (⟨{.serial, .timer}, ∅⟩ : EventState).active_events.erase .serial ∧
      st'.mp_blocking_events =
        (⟨{.serial, .timer}, ∅⟩ : EventState).mp_blocking_events ∧
      .serial ∉ st'.active_events ∧
      ∀ t, t ≠ .serial →
        (t ∈ st'.active_events ↔
         t ∈ (⟨{.serial, .timer}, ∅⟩ : EventState).active_events) :=
  ⟨by decide, C2_await_fast_path .serial ⟨{.serial, .timer}, ∅⟩ (by decide)⟩

/-- C1: slow-path blocking wait is satisfied by a single matching
notification.  If `s` is not pending when `await(s)` is called, `await`
records `{s}` as Awaited-Event and suspends; then a single `notified(ch)`
whose channel maps to `s` fires the `active_events & mp_blocking_events`
check, resumes the suspended `await` (whose assertion passes), which clears
the `s` bit, clears Awaited-Event, and returns — no second notification is
needed. -/
theorem C1_slow_path_single_resume (cfg : BuildCfg) (ch : Channel)
    (s : mp_event_source) (st : EventState)
    (hch : dispatch_case cfg ch = .setEvent s)
    (hblk : st.mp_blocking_events = {s}) :
    (∀ st0 : EventState, s ∉ st0.active_events →
        await_begin s st0 = .suspended ⟨st0.active_events, {s}⟩) ∧
    ∃ st' : EventState,
      notified_run cfg ch st (some s) = some (.resumed st') ∧
      st'.mp_blocking_events = ∅ ∧
      s ∉ st'.active_events ∧
      ∀ t, t ≠ s → (t ∈ st'.active_events ↔ t ∈ st.active_events) := by
  constructor
  · intro st0 h0
    unfold await_begin
    rw [if_neg h0]
  · have hupd : chan_update cfg ch st.active_events =
        insert s st.active_events := by
      unfold chan_update
      rw [hch]
    refine ⟨⟨(insert s st.active_events).erase s, ∅⟩, ?_, rfl, ?_, ?_⟩
    · unfold notified_run
      rw [hupd, hblk]
      have hcond : (insert s st.active_events ∩ ({s} : Finset _)).Nonempty :=
        ⟨s, Finset.mem_inter.mpr
          ⟨Finset.mem_insert_self s st.active_events, Finset.mem_singleton_self s⟩⟩
      simp only [hcond, if_pos]
      unfold await_resume
      simp only [Finset.mem_insert_self, if_pos]
    · exact Finset.not_mem_erase s _
    · intro t ht
      simp [Finset.mem_erase, Finset.mem_insert, ht]

/-- Witness for C1: Pending-Events empty, the interpreter awaits `timer`,
and a single timer-channel notification resumes it (concrete scenario 2 of
the spec). -/
theorem C1_slow_path_single_resume_witness :
    dispatch_case ⟨true, true⟩ .TIMER_CH = .setEvent .timer ∧
    (⟨∅, {.timer}⟩ : EventState).mp_blocking_events = {.timer} ∧
    ((∀ st0 : EventState, mp_event_source.timer ∉ st0.active_events →
        await_begin .timer st0 = .suspended ⟨st0.active_events, {.timer}⟩) ∧
     ∃ st' : EventState,
       notified_run ⟨true, true⟩ .TIMER_CH ⟨∅, {.timer}⟩ (some .timer) =
         some (.resumed st') ∧
       st'.mp_blocking_events = ∅ ∧
       .timer ∉ st'.active_events ∧
       ∀ t, t ≠ .timer →
         (t ∈ st'.active_events ↔
          t ∈ (⟨∅, {.timer}⟩ : EventState).active_events)) :=
  ⟨rfl, rfl,
    C1_slow_path_single_resume ⟨true, true⟩ .TIMER_CH .timer
      ⟨∅, {.timer}⟩ rfl rfl⟩

/-- C3: events are never lost.  (1) Channel mapping only adds bits, so a
pending bit survives any sequence of dispatcher invocations; in particular
a source the interpreter never awaits keeps its bit set indefinitely.
(2) The fast path of `await(s)` removes only the bit for `s`.  (3) The
resume half of `await(s)` removes only the bit for `s` and empties
Awaited-Event.  (4) In the system transition relation, a pending bit `t`
can disappear only through an `await` step that consumes exactly `t`:
either the running interpreter calls `await(t)` on its fast path, or the
dispatcher resumes an `await` suspended on `t`. -/
theorem C3_events_never_lost (cfg : BuildCfg) :
    (∀ (chs : List Channel) (a : Finset mp_event_source) (t : mp_event_source),
        t ∈ a → t ∈ notified_fold cfg chs a) ∧
    (∀ (s : mp_event_source) (st st' : EventState),
        await_begin s st = .immediate st' →
        ∀ t, t ≠ s → (t ∈ st'.active_events ↔ t ∈ st.active_events)) ∧
    (∀ (s : mp_event_source) (st st' : EventState),
        await_resume s st = some st' →
        st'.mp_blocking_events = ∅ ∧
        ∀ t, t ≠ s → (t ∈ st'.active_events ↔ t ∈ st.active_events)) ∧
    (∀ (a b : Sys), Step cfg a b → ∀ t : mp_event_source,
        t ∈ a.ev.active_events → t ∉ b.ev.active_events →
        (a.mp = .running ∧
         b.ev.active_events = a.ev.active_events.erase t) ∨
        (a.mp = .blockedOn t ∧ b.mp = .running)) := by
  refine ⟨?_, ?_, ?_, ?_⟩
  · intro chs a t ht
    exact subset_notified_fold cfg chs a ht
  · intro s st st' h t ht
    unfold await_begin at h
    by_cases hs : s ∈ st.active_events
    · rw [if_pos hs] at h
      cases h
      simp [Finset.mem_erase, ht]
    · rw [if_neg hs] at h
      cases h
  · intro s st st' h
    unfold await_resume at h
    by_cases hs : s ∈ st.active_events
    · rw [if_pos hs] at h
      cases h
      exact ⟨rfl, fun t ht => by simp [Finset.mem_erase, ht]⟩
    · rw [if_neg hs] at h
      cases h
  · intro a b hstep t hta htb
    cases hstep with
    | await_fast s st hs =>
        left
        have hts : t = s := by
          by_contra hne
          exact htb (Finset.mem_erase.mpr ⟨hne, hta⟩)
        subst hts
        exact ⟨rfl, rfl⟩
    | await_slow s st hs => exact absurd hta htb
    | mp_exit st => exact absurd hta htb
    | notify_no_resume ch st m hm hcond =>
        exact absurd (subset_chan_update cfg ch st.active_events hta) htb
    | notify_resume ch st s hcond hres =>
        right
        have hts : t = s := by
          by_contra hne
          exact htb (Finset.mem_erase.mpr
            ⟨hne, subset_chan_update cfg ch st.active_events hta⟩)
        subst hts
        exact ⟨rfl, rfl⟩

/-- Witness for C3: the serial bit, once set, survives a run of three
further notifications (timer, unknown channel, ethernet RX) that the
interpreter never awaits. -/
theorem C3_events_never_lost_witness :
    mp_event_source.serial ∈
      notified_fold ⟨true, true⟩ [.TIMER_CH, .other 7, .ETH_RX_CH] {.serial} :=
  (C3_events_never_lost ⟨true, true⟩).1 [.TIMER_CH, .other 7, .ETH_RX_CH]
    {.serial} .serial (by decide)

/-- C4: dispatcher step order.  Every `notified(ch)` invocation performs,
in order: the three transport pumps first and unconditionally (before the
channel is examined, hence the first three actions do not depend on `ch`);
then the channel-to-event mapping; then a switch to the interpreter context
exactly when Pending-Events (after the mapping) intersects Awaited-Event;
and the deferred network bookkeeping `mpnet_handle_notify` strictly last. -/
theorem C4_dispatcher_step_order (cfg : BuildCfg) (ch : Channel)
    (st : EventState) :
    (notified_trace cfg ch st).take 3 =
      [.process_rx, .pyb_lwip_poll, .fs_process_completions] ∧
    (notified_trace cfg ch st).getLast? = some .mpnet_handle_notify ∧
    (Action.switch_to_mp ∈ notified_trace cfg ch st ↔
      ((chan_update cfg ch st.active_events) ∩
        st.mp_blocking_events).Nonempty) ∧
    (∀ s : mp_event_source,
      Action.set_bit s ∈ notified_trace cfg ch st ↔
        dispatch_case cfg ch = .setEvent s) ∧
    (notified_trace cfg ch st).count .mpnet_handle_notify = 1 := by
  unfold notified_trace
  rcases hd : dispatch_case cfg ch with s | _ | _ <;>
    by_cases hc : ((chan_update cfg ch st.active_events) ∩
        st.mp_blocking_events).Nonempty <;>
    simp [hd, hc, List.getLast?_concat, List.count_cons] <;>
    exact fun s1 => eq_comm

lemma notified_trace_getLast (cfg : BuildCfg) (ch : Channel)
    (st : EventState) :
    (notified_trace cfg ch st).getLast? = some .mpnet_handle_notify := by
  have h1 : ∀ l : List Action,
      (l ++ [Action.mpnet_handle_notify]).getLast? =
        some .mpnet_handle_notify := by
    intro l
    rw [List.getLast?_append_cons]
    rfl
  unfold notified_trace
  exact h1 _

/-- C7: unknown channels are harmless.  A channel id outside the fixed
table hits the `default` case: it is logged, the channel mapping leaves
Pending-Events unchanged, the dispatcher continues to the end of `notified`
(the trailing bookkeeping still runs), and — when the interpreter holds no
outstanding wait — the invocation ends with the event state exactly as it
started. -/
theorem C7_unknown_channel_harmless (cfg : BuildCfg) (n : Nat)
    (st : EventState) :
    dispatch_case cfg (.other n) = .unknownLogged ∧
    chan_update cfg (.other n) st.active_events = st.active_events ∧
    Action.log_unknown ∈ notified_trace cfg (.other n) st ∧
    (notified_trace cfg (.other n) st).getLast? =
      some .mpnet_handle_notify ∧
    (st.mp_blocking_events = ∅ →
      notified_run cfg (.other n) st none = some (.noResume st)) := by
  obtain ⟨a, b⟩ := st
  refine ⟨rfl, rfl, ?_, notified_trace_getLast cfg (.other n) ⟨a, b⟩, ?_⟩
  · unfold notified_trace
    simp [dispatch_case]
  · intro hblk
    simp only at hblk
    subst hblk
    unfold notified_run
    have h : chan_update cfg (.other n) a = a := rfl
    simp [h]

/-- Witness for C7 at a concrete state (concrete scenario 4 of the spec):
an unregistered channel id leaves Pending-Events = {timer} unchanged. -/
theorem C7_unknown_channel_harmless_witness :
    notified_run ⟨true, true⟩ (.other 99) ⟨{.timer}, ∅⟩ none =
      some (.noResume ⟨{.timer}, ∅⟩) :=
  (C7_unknown_channel_harmless ⟨true, true⟩ 99 ⟨{.timer}, ∅⟩).2.2.2.2 rfl

/-- C10 (implicit): the ethernet channels are recognised — they do not hit
the logging `default` case — yet they map to no event source:
the channel mapping leaves Pending-Events unchanged, so a `notified` on an
ethernet channel can never satisfy an outstanding `await` by its channel
mapping alone (if the awaited bit was not pending before, the invocation
ends without resuming); ethernet activity is covered only by the
unconditional pump prefix of the trace. -/
theorem C10_eth_channels_no_event (cfg : BuildCfg) (st : EventState)
    (s : mp_event_source) :
    dispatch_case cfg .ETH_RX_CH = .nothingToDo ∧
    dispatch_case cfg .ETH_TX_CH = .nothingToDo ∧
    chan_update cfg .ETH_RX_CH st.active_events = st.active_events ∧
    chan_update cfg .ETH_TX_CH st.active_events = st.active_events ∧
    Action.log_unknown ∉ notified_trace cfg .ETH_RX_CH st ∧
    Action.log_unknown ∉ notified_trace cfg .ETH_TX_CH st ∧
    (notified_trace cfg .ETH_RX_CH st).take 3 =
      [.process_rx, .pyb_lwip_poll, .fs_process_completions] ∧
    (st.mp_blocking_events = {s} → s ∉ st.active_events →
      notified_run cfg .ETH_RX_CH st (some s) = some (.noResume st) ∧
      notified_run cfg .ETH_TX_CH st (some s) = some (.noResume st)) := by
  refine ⟨rfl, rfl, rfl, rfl, ?_, ?_, ?_, ?_⟩
  · unfold notified_trace
    by_cases hc : ((chan_update cfg .ETH_RX_CH st.active_events) ∩
        st.mp_blocking_events).Nonempty <;>
      simp [dispatch_case, hc]
  · unfold notified_trace
    by_cases hc : ((chan_update cfg .ETH_TX_CH st.active_events) ∩
        st.mp_blocking_events).Nonempty <;>
      simp [dispatch_case, hc]
  · unfold notified_trace
    rfl
  · intro hblk hs
    obtain ⟨a, b⟩ := st
    simp only at hblk hs
    subst hblk
    have hempty : (a ∩ ({s} : Finset mp_event_source)) = ∅ :=
      Finset.inter_singleton_of_not_mem hs
    constructor
    · unfold notified_run
      have hupd : chan_update cfg .ETH_RX_CH a = a := rfl
      simp [hupd, hempty]
    · unfold notified_run
      have hupd : chan_update cfg .ETH_TX_CH a = a := rfl
      simp [hupd, hempty]

/-- Witness for C10: the interpreter is blocked on `serial` with nothing
pending; an ethernet RX notification does not resume it. -/
theorem C10_eth_channels_no_event_witness :
    notified_run ⟨true, true⟩ .ETH_RX_CH ⟨∅, {.serial}⟩ (some .serial) =
      some (.noResume ⟨∅, {.serial}⟩) ∧
    notified_run ⟨true, true⟩ .ETH_TX_CH ⟨∅, {.serial}⟩ (some .serial) =
      some (.noResume ⟨∅, {.serial}⟩) :=
  (C10_eth_channels_no_event ⟨true, true⟩ ⟨∅, {.serial}⟩ .serial).2.2.2.2.2.2.2
    rfl (by decide)

/-- C5 counterexample: the claim says a double `await` "halts the process
rather than proceeding", but `await` (micropython.c lines 53-63) contains
no check of `mp_blocking_events` on entry.  Invoked with Awaited-Event
already holding `timer`, `await(serial)` simply proceeds down the slow
path, silently overwriting Awaited-Event with `serial` — no assertion
fires and no halt occurs before the suspension point. -/
theorem C5_double_await_counterexample :
    await_begin .serial ⟨∅, {.timer}⟩ = .suspended ⟨∅, {.serial}⟩ := by
  decide

/-- C5 amended: the code performs no double-await check — `await` invoked
while Awaited-Event is non-empty proceeds normally (fast path if the bit is
pending, otherwise it overwrites Awaited-Event with the new source and
suspends); the situation can never arise in a reachable state, because
Awaited-Event is empty whenever the interpreter context — the only caller
of `await` — is running. -/
theorem C5_double_await_unchecked (cfg : BuildCfg) (s : mp_event_source)
    (st : EventState) (hne : st.mp_blocking_events ≠ ∅) :
    (s ∉ st.active_events →
      await_begin s st = .suspended ⟨st.active_events, {s}⟩) ∧
    (s ∈ st.active_events →
      await_begin s st =
        .immediate ⟨st.active_events.erase s, st.mp_blocking_events⟩) ∧
    (∀ sys : Sys, Reachable cfg sys → sys.mp = .running →
      sys.ev.mp_blocking_events = ∅) := by
  refine ⟨?_, ?_, ?_⟩
  · intro hs
    unfold await_begin
    rw [if_neg hs]
  · intro hs
    unfold await_begin
    rw [if_pos hs]
  · intro sys hreach hrun
    have hinv := reachable_sysInv hreach
    unfold SysInv at hinv
    rw [hrun] at hinv
    exact hinv

/-- Witness for C5's amended claim: with Awaited-Event = {timer} and
nothing pending, `await(serial)` proceeds and overwrites Awaited-Event. -/
theorem C5_double_await_unchecked_witness :
    (⟨∅, {.timer}⟩ : EventState).mp_blocking_events ≠ ∅ ∧
    await_begin .serial ⟨∅, {.timer}⟩ = .suspended ⟨∅, {.serial}⟩ :=
  ⟨by decide,
   (C5_double_await_unchecked ⟨true, true⟩ .serial ⟨∅, {.timer}⟩
      (by decide)).1 (by decide)⟩

/-- C6: Awaited-Event discipline.  In every reachable system state
`mp_blocking_events` holds at most one event-source tag and is non-empty
only while the interpreter context is suspended on exactly that tag;
moreover the slow path of `await` sets it immediately at the suspension
point, and the resume half clears it before `await` returns. -/
theorem C6_awaited_event_discipline (cfg : BuildCfg) (sys : Sys)
    (h : Reachable cfg sys) :
    sys.ev.mp_blocking_events.card ≤ 1 ∧
    (sys.ev.mp_blocking_events ≠ ∅ →
      ∃ s, sys.mp = .blockedOn s ∧ sys.ev.mp_blocking_events = {s}) ∧
    (∀ (s : mp_event_source) (st : EventState), s ∉ st.active_events →
      await_begin s st = .suspended ⟨st.active_events, {s}⟩) ∧
    (∀ (s : mp_event_source) (st st' : EventState),
      await_resume s st = some st' → st'.mp_blocking_events = ∅) := by
  have hinv := reachable_sysInv h
  unfold SysInv at hinv
  refine ⟨?_, ?_, ?_, ?_⟩
  · rcases hm : sys.mp with _ | s | _ <;> rw [hm] at hinv <;> simp [hinv]
  · intro hne
    rcases hm : sys.mp with _ | s | _ <;> rw [hm] at hinv
    · exact absurd hinv hne
    · exact ⟨s, rfl, hinv⟩
    · exact absurd hinv hne
  · intro s st hs
    unfold await_begin
    rw [if_neg hs]
  · intro s st st' hres
    unfold await_resume at hres
    by_cases hs : s ∈ st.active_events
    · rw [if_pos hs] at hres
      cases hres
      rfl
    · rw [if_neg hs] at hres
      cases hres

/-- Witness for C6 at the initial state (reachable by definition). -/
theorem C6_awaited_event_discipline_witness :
    initSys.ev.mp_blocking_events.card ≤ 1 ∧
    (initSys.ev.mp_blocking_events ≠ ∅ →
      ∃ s, initSys.mp = .blockedOn s ∧
        initSys.ev.mp_blocking_events = {s}) ∧
    (∀ (s : mp_event_source) (st : EventState), s ∉ st.active_events →
      await_begin s st = .suspended ⟨st.active_events, {s}⟩) ∧
    (∀ (s : mp_event_source) (st st' : EventState),
      await_resume s st = some st' → st'.mp_blocking_events = ∅) :=
  C6_awaited_event_discipline ⟨true, true⟩ initSys Reachable.init

/-- C8: bootstrap seeding count.  Each serial free ring (receive and
transmit) is seeded by `init` with exactly `NUM_ENTRIES - 1` calls to
`serial_enqueue_free`, each passing `BUFFER_SIZE` as the length; for a
capacity-4 ring that is exactly 3 seeded slots.  (`init` runs before the
first `notified` invocation: the seeding loops precede the
`co_switch(t_mp)` at the end of `init`, and the microkit event loop only
delivers notifications after `init` returns.) -/
theorem C8_bootstrap_seed_count
    (rx_data tx_data num_entries buffer_size : Nat) :
    (init_seed_calls rx_data num_entries buffer_size).length =
      num_entries - 1 ∧
    (init_seed_calls tx_data num_entries buffer_size).length =
      num_entries - 1 ∧
    (∀ p ∈ init_seed_calls rx_data num_entries buffer_size,
      p.2 = buffer_size) ∧
    (∀ p ∈ init_seed_calls tx_data num_entries buffer_size,
      p.2 = buffer_size) ∧
    (init_seed_calls rx_data 4 buffer_size).length = 3 := by
  refine ⟨?_, ?_, ?_, ?_, ?_⟩ <;>
    simp [init_seed_calls]

/-- Witness for C8 at concrete ring parameters: a capacity-4 ring with
512-byte slots is seeded with exactly 3 free slots. -/
theorem C8_bootstrap_seed_count_witness :
    (init_seed_calls 4096 4 512).length = 3 :=
  (C8_bootstrap_seed_count 4096 8192 4 512).2.2.2.2

lemma entry_iter_repl_cases (n : Nat) (p : EntryPoint)
    (hp : p = .start_repl ∨ p = .main_loop ∨ p = .teardown) :
    entry_iter false n p = .start_repl ∨
    entry_iter false n p = .main_loop ∨
    entry_iter false n p = .teardown := by
  induction n generalizing p with
  | zero => exact hp
  | succ n ih =>
      rcases hp with h | h | h <;> subst h <;>
        exact ih _ (by simp [entry_step])

lemma entry_iter_terminated (b : Bool) (n : Nat) :
    entry_iter b n .terminated = .terminated := by
  induction n with
  | zero => rfl
  | succ n ih => exact ih

lemma entry_iter_add (b : Bool) (m n : Nat) (p : EntryPoint) :
    entry_iter b (m + n) p = entry_iter b n (entry_iter b m p) := by
  induction m generalizing p with
  | zero => rw [Nat.zero_add]; rfl
  | succ m ih =>
      rw [Nat.succ_add]
      exact ih (entry_step b p)

lemma entry_iter_frozen_tail (n : Nat) (p : EntryPoint)
    (hp : p = .teardown ∨ p = .switch_back ∨ p = .terminated) :
    entry_iter true n p = .teardown ∨
    entry_iter true n p = .switch_back ∨
    entry_iter true n p = .terminated := by
  induction n generalizing p with
  | zero => exact hp
  | succ n ih =>
      rcases hp with h | h | h <;> subst h <;>
        exact ih _ (by simp [entry_step])

/-- C9: interpreter exit behaviour by build configuration.  After the main
loop terminates, the entry routine tears down the runtime (`main_loop`
steps to `teardown` in both builds).  In the REPL build (`EXEC_MODULE`
undefined) teardown jumps back to `start_repl`, so the final
`co_switch(t_event)` is never reached from the entry point no matter how
many steps run, and the routine never terminates.  In the frozen-module
build (`EXEC_MODULE` defined) the main loop is entered exactly once (step
1), teardown falls through to the `co_switch(t_event)` (reached at step 3),
and from step 4 on the interpreter is terminated for the lifetime of the
process. -/
theorem C9_entrypoint_exit_behaviour :
    (∀ b : Bool, entry_step b .main_loop = .teardown) ∧
    entry_step false .teardown = .start_repl ∧
    (∀ n : Nat, entry_iter false n .start_repl ≠ .switch_back) ∧
    (∀ n : Nat, entry_iter false n .start_repl ≠ .terminated) ∧
    entry_step true .teardown = .switch_back ∧
    entry_iter true 3 .start_repl = .switch_back ∧
    (∀ n : Nat, entry_iter true (4 + n) .start_repl = .terminated) ∧
    (∀ n : Nat, 2 ≤ n → entry_iter true n .start_repl ≠ .main_loop) := by
  refine ⟨fun b => rfl, rfl, ?_, ?_, rfl, rfl, ?_, ?_⟩
  · intro n h
    rcases entry_iter_repl_cases n .start_repl (Or.inl rfl) with h' | h' | h' <;>
      rw [h] at h' <;> cases h'
  · intro n h
    rcases entry_iter_repl_cases n .start_repl (Or.inl rfl) with h' | h' | h' <;>
      rw [h] at h' <;> cases h'
  · intro n
    rw [entry_iter_add true 4 n .start_repl]
    exact entry_iter_terminated true n
  · intro n hn h
    obtain ⟨k, rfl⟩ := Nat.exists_eq_add_of_le hn
    rw [entry_iter_add true 2 k .start_repl] at h
    rcases entry_iter_frozen_tail k .teardown (Or.inl rfl) with h' | h' | h' <;>
      · rw [show entry_iter true 2 EntryPoint.start_repl = .teardown from rfl]
          at h
        rw [h] at h'
        cases h'

/-- Witness for C9: in the frozen-module build, two steps from the entry
point land in teardown, never back in the main loop. -/
theorem C9_entrypoint_exit_behaviour_witness :
    entry_iter true 2 .start_repl ≠ .main_loop :=
  C9_entrypoint_exit_behaviour.2.2.2.2.2.2.2 2 (by decide)

end MPCore
